import Mathlib

/-!
Verification of the label batch subsystem of the home-inventory backend.

The Rust sources embedded here are:
- `src/backend/src/routes/labels.rs` (`generate_labels`, `assign_label`),
- `src/backend/src/services/qr_pdf.rs` (`Avery18660`, `generate_qr_code_image`,
  `generate_label_pdf`),
- `src/backend/src/models/label.rs` (the `Label` row type).

Modelling conventions:
- The Postgres `labels` table is a `List Label`; `SELECT COALESCE(MAX(number),0)`
  is `maxNumber`; an `INSERT ... RETURNING *` appends the row.
- `Uuid::new_v4()` draws from an id supply `ids : Nat -> Nat` carried in `GenEnv`
  (the batch id is `ids 0`, the i-th label id is `ids (i+1)`).
- `NOW()` is an explicit `now : Int` parameter.
- Store failures are a schedule `failAt : Nat -> Bool` saying whether the i-th
  `INSERT` of a call fails (sqlx errors are otherwise opaque).
- Rust `i32` sequence numbers are modelled as `Int` (the handler validates
  `1 <= count <= 1000`, far from any `i32` bound).
- The `f32` sheet geometry is modelled exactly over `Rat`: every constant of the
  Avery 18660 template is a decimal literal and all position arithmetic in the
  source is the literal formula, so the rational model is the exact-arithmetic
  reading of the code.
- External crates (`qrcode`, `image`, `printpdf`) are not part of this
  repository; their entry points used by the code are abstract function
  parameters (`qrNew`, `renderPng`, `loadImg`), which makes them pure by
  construction, exactly as the crates' APIs are.
-/

/-- A row of the `labels` table (struct `Label` in `models/label.rs`).
`Uuid` columns are `Nat` (drawn from the id supply), timestamps are `Int`. -/
structure Label where
  id : Nat
  number : Int
  qr_data : List Char
  batch_id : Option Nat
  assigned_to_type : Option (List Char)
  assigned_to_id : Option Nat
  created_at : Int
  assigned_at : Option Int
deriving DecidableEq

/-- Environment of one `generate_labels` request: configured base URL, the
UUID supply, the database clock, and the insert-failure schedule. -/
structure GenEnv where
  base_url : List Char
  ids : Nat → Nat
  now : Int
  failAt : Nat → Bool

/-- Body of a successful `generate_labels` response
(struct `GenerateLabelsResponse`). -/
structure GenerateLabelsResponse where
  batch_id : Nat
  labels : List Label
  count : Int

/-- `SELECT COALESCE(MAX(number), 0) FROM labels`: the maximum stored sequence
number, `0` when the table is empty. -/
def maxNumber : List Label → Int
  | [] => 0
  | l :: ls => ls.foldl (fun a x => max a x.number) l.number

/-- Rust `str::trim_end_matches('/')` for the single-character pattern:
removes every trailing occurrence of `c`. -/
def trimEndMatches (c : Char) (s : List Char) : List Char :=
  (s.reverse.dropWhile (fun x => x == c)).reverse

/-- The literal `"/l/"` spliced into each label's QR payload URL. -/
def slashL : List Char := ("/l/").toList

/-- The single supported template identifier `"avery_18660"`. -/
def averyTemplateName : List Char := ("avery_18660").toList

/-- One loop iteration of `generate_labels`: the label row inserted for loop
index `i` (id from the supply, `number = start_number + i`,
`qr_data = base_url-without-trailing-slashes ++ "/l/" ++ label_id`). -/
def mkLabel (env : GenEnv) (batch : Nat) (start : Int) (i : Nat) : Label :=
  let label_id := env.ids (i + 1)
  { id := label_id
    number := start + i
    qr_data := trimEndMatches '/' env.base_url ++ slashL ++ (Nat.repr label_id).toList
    batch_id := some batch
    assigned_to_type := none
    assigned_to_id := none
    created_at := env.now
    assigned_at := none }

/-- The insert loop `for i in 0..payload.count` of `generate_labels`:
`n` iterations remain, `i` is the loop index, `store` the current table.
Returns `(some createdInOrder, finalStore)` on success and `(none, finalStore)`
when an `INSERT` fails; rows inserted before the failure stay in the store
(the handler runs no transaction). -/
def genLoop (env : GenEnv) (batch : Nat) (start : Int) :
    Nat → Nat → List Label → Option (List Label) × List Label
  | 0, _, store => (some [], store)
  | n + 1, i, store =>
    if env.failAt i then (none, store)
    else
      let lbl := mkLabel env batch start i
      match genLoop env batch start n (i + 1) (store ++ [lbl]) with
      | (some rest, st) => (some (lbl :: rest), st)
      | (none, st) => (none, st)

/-- Closed form of the rows created by `genLoop` along a failure-free run of
`n` iterations starting at loop index `i`. -/
def labelsGen (env : GenEnv) (batch : Nat) (start : Int) : Nat → Nat → List Label
  | 0, _ => []
  | n + 1, i => mkLabel env batch start i :: labelsGen env batch start n (i + 1)

/-- `generate_labels` handler (`routes/labels.rs`): validates
`1 <= count <= 1000` and the template name, draws a batch id, reads the current
maximum number, then inserts `count` rows numbered `max+1, max+2, ...`.
Returns the HTTP outcome (status code on error) together with the post store. -/
def generate_labels (env : GenEnv) (store : List Label) (count : Int)
    (template : Option (List Char)) :
    Except Nat GenerateLabelsResponse × List Label :=
  if count ≤ 0 ∨ 1000 < count then (.error 400, store)
  else if template.getD averyTemplateName ≠ averyTemplateName then (.error 400, store)
  else
    let batch_id := env.ids 0
    let max_number := maxNumber store
    let start_number := max_number + 1
    match genLoop env batch_id start_number count.toNat 0 store with
    | (some labels, store2) => (.ok ⟨batch_id, labels, count⟩, store2)
    | (none, store2) => (.error 500, store2)

/-! ## Sheet geometry and document rendering (`services/qr_pdf.rs`) -/

namespace Avery18660

/-- Avery 18660 template constant (`qr_pdf.rs`). -/
def LABEL_WIDTH_INCHES : ℚ := 2.625

/-- Avery 18660 template constant (`qr_pdf.rs`). -/
def LABEL_HEIGHT_INCHES : ℚ := 1

/-- Avery 18660 template constant (`qr_pdf.rs`). -/
def LABELS_PER_ROW : Nat := 3

/-- Avery 18660 template constant (`qr_pdf.rs`). -/
def LABELS_PER_COLUMN : Nat := 10

/-- Avery 18660 template constant (`qr_pdf.rs`). -/
def LABELS_PER_SHEET : Nat := 30

/-- Avery 18660 template constant (`qr_pdf.rs`). -/
def HORIZONTAL_SPACING_INCHES : ℚ := 0.125

/-- Avery 18660 template constant (`qr_pdf.rs`). -/
def VERTICAL_SPACING_INCHES : ℚ := 0

/-- Avery 18660 template constant (`qr_pdf.rs`). -/
def TOP_MARGIN_INCHES : ℚ := 0.5

/-- Avery 18660 template constant (`qr_pdf.rs`). -/
def BOTTOM_MARGIN_INCHES : ℚ := 0.5

/-- Avery 18660 template constant (`qr_pdf.rs`). -/
def LEFT_MARGIN_INCHES : ℚ := 0.19

/-- Avery 18660 template constant (`qr_pdf.rs`). -/
def RIGHT_MARGIN_INCHES : ℚ := 0.19

/-- Avery 18660 template constant (`qr_pdf.rs`). -/
def SHEET_WIDTH_INCHES : ℚ := 8.5

/-- Avery 18660 template constant (`qr_pdf.rs`). -/
def SHEET_HEIGHT_INCHES : ℚ := 11

end Avery18660

/-- `label_width_pt` in `generate_label_pdf` (inches times 72). -/
def labelWidthPt : ℚ := Avery18660.LABEL_WIDTH_INCHES * 72

/-- `label_height_pt` in `generate_label_pdf`. -/
def labelHeightPt : ℚ := Avery18660.LABEL_HEIGHT_INCHES * 72

/-- `horizontal_spacing` in `generate_label_pdf`. -/
def horizontalSpacingPt : ℚ := Avery18660.HORIZONTAL_SPACING_INCHES * 72

/-- `top_margin_pt` in `generate_label_pdf`. -/
def topMarginPt : ℚ := Avery18660.TOP_MARGIN_INCHES * 72

/-- `left_margin_pt` in `generate_label_pdf`. -/
def leftMarginPt : ℚ := Avery18660.LEFT_MARGIN_INCHES * 72

/-- `sheet_height_pt` in `generate_label_pdf`. -/
def sheetHeightPt : ℚ := Avery18660.SHEET_HEIGHT_INCHES * 72

/-- `qr_size_pt = 0.85 * 72.0` in `generate_label_pdf`. -/
def qrSizePt : ℚ := 0.85 * 72

/-- `qr_size_pixels = 300` in `generate_label_pdf`. -/
def qrSizePixels : Nat := 300

/-- The error cases of `generate_qr_code_image` / `generate_label_pdf`
(the distinct `anyhow` failure sites of `qr_pdf.rs`). -/
inductive QrPdfError where
  | emptyBatch
  | qrEncodingFailed
  | pngWriteFailed
  | imgLoadFailed
  | fontFailed
deriving DecidableEq

/-- The module matrix produced by `qrcode::QrCode` (external crate). -/
def QrMatrix : Type := List (List Bool)

/-- A decoded RGB raster (`image::RgbImage`, external crate). -/
structure RgbImage where
  width : Nat
  height : Nat
  data : List Nat
deriving DecidableEq

/-- `generate_qr_code_image` (`qr_pdf.rs`): build the QR matrix for the payload
(`QrCode::new`, may fail on capacity), render it within `size_pixels` and
PNG-encode it. `qrNew` and `renderPng` are the external crate entry points. -/
def generate_qr_code_image (qrNew : List Char → Option QrMatrix)
    (renderPng : QrMatrix → Nat → Option (List Nat))
    (data : List Char) (size_pixels : Nat) : Except QrPdfError (List Nat) :=
  match qrNew data with
  | none => .error .qrEncodingFailed
  | some m =>
    match renderPng m size_pixels with
    | none => .error .pngWriteFailed
    | some bytes => .ok bytes

/-- `generate_qr_code_image` viewed inside the effect-passing convention of
this development: operations that touch ambient effect sources (the UUID
supply, the store) thread a world value; this function's body contains no
such operation, so the world passes through untouched. -/
def generate_qr_code_image_run (qrNew : List Char → Option QrMatrix)
    (renderPng : QrMatrix → Nat → Option (List Nat))
    (w : Nat) (data : List Char) (size_pixels : Nat) :
    Except QrPdfError (List Nat) × Nat :=
  (generate_qr_code_image qrNew renderPng data size_pixels, w)

/-- Everything `generate_label_pdf` draws onto a page for one label:
the label cell origin `(x, y)`, the QR raster placement, the number text
placement, the loaded raster and the printed number. -/
structure PlacedLabel where
  x : ℚ
  y : ℚ
  qr_x : ℚ
  qr_y : ℚ
  text_x : ℚ
  text_y : ℚ
  image : RgbImage
  number : Int
deriving DecidableEq

/-- The per-slot geometry of `generate_label_pdf` for in-sheet index
`label_idx`: row/column from integer division, the cell position formulas of
lines 122 and 127 of `qr_pdf.rs`, and the QR/text offsets within the cell. -/
def placeSlot (label_idx : Nat) (number : Int) (img : RgbImage) : PlacedLabel :=
  let row := label_idx / Avery18660.LABELS_PER_ROW
  let col := label_idx % Avery18660.LABELS_PER_ROW
  let x := leftMarginPt + (col : ℚ) * (labelWidthPt + horizontalSpacingPt)
  let y := sheetHeightPt - topMarginPt - ((row : ℚ) + 1) * labelHeightPt
  let qr_left_margin : ℚ := 5
  let qr_x := x + qr_left_margin
  let qr_y := y + (labelHeightPt - qrSizePt) / 2
  let text_spacing : ℚ := 8
  let font_size : ℚ := 12
  let text_x := qr_x + qrSizePt + text_spacing
  let text_y := y + labelHeightPt / 2 + font_size * 0.35
  ⟨x, y, qr_x, qr_y, text_x, text_y, img, number⟩

/-- Fuel-based recursion for `slice::chunks`: each step takes one block of 30
and recurses on the rest. The fuel only bounds the recursion depth (every step
consumes at least one element, so `fuel = length` suffices); it keeps the
function structurally recursive and hence computable by reduction. -/
def chunksAux : Nat → List α → List (List α)
  | 0, _ => []
  | _ + 1, [] => []
  | fuel + 1, x :: xs =>
    ((x :: xs).take Avery18660.LABELS_PER_SHEET)
      :: chunksAux fuel ((x :: xs).drop Avery18660.LABELS_PER_SHEET)

/-- `labels.chunks(Avery18660::LABELS_PER_SHEET)`: split the label list into
runs of 30, the last chunk possibly shorter. -/
def chunksPerSheet (xs : List α) : List (List α) := chunksAux xs.length xs

/-- The inner loop of `generate_label_pdf` over one sheet's chunk: for each
label in enumeration order, encode its payload at 300 px (`generate_qr_code_image`),
reload the PNG (`image::load_from_memory`, abstract `loadImg`), and place it at
the slot of its in-sheet index. The first failure aborts the render. -/
def renderSlots (qrNew : List Char → Option QrMatrix)
    (renderPng : QrMatrix → Nat → Option (List Nat))
    (loadImg : List Nat → Option RgbImage) :
    Nat → List (List Char × Int) → Except QrPdfError (List PlacedLabel)
  | _, [] => .ok []
  | label_idx, (qr_data, number) :: rest =>
    match generate_qr_code_image qrNew renderPng qr_data qrSizePixels with
    | .error e => .error e
    | .ok png =>
      match loadImg png with
      | none => .error .imgLoadFailed
      | some img =>
        match renderSlots qrNew renderPng loadImg (label_idx + 1) rest with
        | .error e => .error e
        | .ok ps => .ok (placeSlot label_idx number img :: ps)

/-- The outer loop of `generate_label_pdf`: one page per 30-label chunk,
in chunk order. -/
def renderPages (qrNew : List Char → Option QrMatrix)
    (renderPng : QrMatrix → Nat → Option (List Nat))
    (loadImg : List Nat → Option RgbImage) :
    List (List (List Char × Int)) → Except QrPdfError (List (List PlacedLabel))
  | [] => .ok []
  | c :: cs =>
    match renderSlots qrNew renderPng loadImg 0 c with
    | .error e => .error e
    | .ok page =>
      match renderPages qrNew renderPng loadImg cs with
      | .error e => .error e
      | .ok pages => .ok (page :: pages)

/-- `generate_label_pdf` (`qr_pdf.rs`): reject an empty batch, add the
built-in font (`fontOk` models `add_builtin_font`'s fallibility), then render
the labels sheet by sheet. The result is the list of pages with every placed
item; PDF byte serialization (`doc.save`) is outside the geometric model. -/
def generate_label_pdf (qrNew : List Char → Option QrMatrix)
    (renderPng : QrMatrix → Nat → Option (List Nat))
    (loadImg : List Nat → Option RgbImage) (fontOk : Bool)
    (labels : List (List Char × Int)) :
    Except QrPdfError (List (List PlacedLabel)) :=
  if labels = [] then .error .emptyBatch
  else if fontOk = false then .error .fontFailed
  else renderPages qrNew renderPng loadImg (chunksPerSheet labels)

/-! ## Assignment (`assign_label` in `routes/labels.rs`) -/

/-- The store operations `assign_label` can issue, in order. -/
inductive DbOp where
  | selectLabel (id : Nat)
  | updateLabel (id : Nat)
deriving DecidableEq

/-- Outcome of one `assign_label` call: HTTP result, post store, and the
ordered trace of store operations performed. -/
structure AssignOut where
  result : Except Nat Label
  store : List Label
  ops : List DbOp

/-- `valid_types` in `assign_label`. -/
def validEntityTypes : List (List Char) :=
  [("room").toList, ("unit").toList, ("shelf").toList,
   ("container").toList, ("item").toList]

/-- The `UPDATE labels SET assigned_to_type = $1, assigned_to_id = $2,
assigned_at = NOW() WHERE id = $3` row transformation. -/
def updateAssign (now : Int) (t : List Char) (eid : Nat) (l : Label) : Label :=
  { l with assigned_to_type := some t, assigned_to_id := some eid,
           assigned_at := some now }

/-- `assign_label` handler (`routes/labels.rs`): validate the entity type
before touching the store, then look the label up (404 when absent), then
update its assignment columns and return the updated row. -/
def assign_label (store : List Label) (now : Int) (id : Nat)
    (assigned_to_type : List Char) (assigned_to_id : Nat) : AssignOut :=
  if validEntityTypes.contains assigned_to_type = false then
    ⟨.error 400, store, []⟩
  else
    match store.find? (fun l => l.id == id) with
    | none => ⟨.error 404, store, [DbOp.selectLabel id]⟩
    | some _ =>
      let store2 := store.map (fun l =>
        if l.id == id then updateAssign now assigned_to_type assigned_to_id l
        else l)
      match store2.find? (fun l => l.id == id) with
      | some lbl => ⟨.ok lbl, store2, [DbOp.selectLabel id, DbOp.updateLabel id]⟩
      | none => ⟨.error 500, store2, [DbOp.selectLabel id, DbOp.updateLabel id]⟩

/-! ## Concrete instances used to exercise the theorems -/

/-- A request environment whose inserts all succeed. -/
def envNoFail : GenEnv :=
  ⟨("http://inv.example/").toList, fun n => n, 0, fun _ => false⟩

/-- A request environment whose second insert (loop index 1) fails. -/
def envFailSecond : GenEnv :=
  ⟨("http://inv.example/").toList, fun n => n, 0, fun i => i == 1⟩

/-- A stub QR constructor that accepts every payload. -/
def qrNewStub : List Char → Option QrMatrix := fun _ => some [[true]]

/-- A stub PNG renderer. -/
def renderPngStub : QrMatrix → Nat → Option (List Nat) := fun _ _ => some [137, 80]

/-- A stub PNG loader. -/
def loadImgStub : List Nat → Option RgbImage := fun _ => some ⟨1, 1, [0]⟩

/-- 31 concrete (payload, number) pairs: one more than a full sheet. -/
def labelsData31 : List (List Char × Int) :=
  (List.range 31).map (fun i => (("p").toList, (i : Int)))

/-- One concrete (payload, number) pair. -/
def labelsData1 : List (List Char × Int) := [(("p").toList, 1)]

/-- A concrete stored label used to exercise the assignment theorems. -/
def labelA : Label :=
  { id := 7, number := 1, qr_data := ("u/l/7").toList, batch_id := some 3,
    assigned_to_type := none, assigned_to_id := none,
    created_at := 0, assigned_at := none }

/-! ## Allocator loop lemmas -/

/-- `labelsGen` produces exactly `n` rows. -/
theorem labelsGen_length (env : GenEnv) (batch : Nat) (start : Int) :
    ∀ (n i : Nat), (labelsGen env batch start n i).length = n := by
  intro n
  induction n with
  | zero => intro i; simp [labelsGen]
  | succ n ih => intro i; simp [labelsGen, ih]

/-- The `j`-th row of `labelsGen` is the row for absolute loop index `i + j`. -/
theorem labelsGen_getElem (env : GenEnv) (batch : Nat) (start : Int) :
    ∀ (n i j : Nat), j < n →
      (labelsGen env batch start n i)[j]? = some (mkLabel env batch start (i + j)) := by
  intro n
  induction n with
  | zero => intro i j hj; omega
  | succ n ih =>
    intro i j hj
    cases j with
    | zero => simp [labelsGen]
    | succ j =>
      have h := ih (i + 1) j (by omega)
      have hidx : i + 1 + j = i + (j + 1) := by omega
      rw [hidx] at h
      simp [labelsGen, h]

/-- Every row of `labelsGen` is `mkLabel` at some loop index below `n`. -/
theorem labelsGen_mem (env : GenEnv) (batch : Nat) (start : Int) :
    ∀ (n i : Nat) (l : Label), l ∈ labelsGen env batch start n i →
      ∃ j, j < n ∧ l = mkLabel env batch start (i + j) := by
  intro n
  induction n with
  | zero => intro i l hl; simp [labelsGen] at hl
  | succ n ih =>
    intro i l hl
    simp only [labelsGen, List.mem_cons] at hl
    cases hl with
    | inl h => exact ⟨0, by omega, by simpa using h⟩
    | inr h =>
      obtain ⟨j, hj, hl⟩ := ih (i + 1) l h
      exact ⟨j + 1, by omega, by rw [hl]; congr 1; omega⟩

/-- A failure-free run of the insert loop creates exactly the `labelsGen` rows
and appends them to the store in order. -/
theorem genLoop_noFail (env : GenEnv) (batch : Nat) (start : Int) :
    ∀ (n i : Nat) (store : List Label),
      (∀ j, j < n → env.failAt (i + j) = false) →
      genLoop env batch start n i store =
        (some (labelsGen env batch start n i),
         store ++ labelsGen env batch start n i) := by
  intro n
  induction n with
  | zero => intro i store _; simp [genLoop, labelsGen]
  | succ n ih =>
    intro i store h
    have hf : env.failAt i = false := by simpa using h 0 (by omega)
    have hrest : ∀ j, j < n → env.failAt (i + 1 + j) = false := by
      intro j hj
      have := h (j + 1) (by omega)
      simpa [Nat.add_assoc, Nat.add_comm 1 j] using this
    simp only [genLoop, hf, Bool.false_eq_true, if_false]
    rw [ih (i + 1) (store ++ [mkLabel env batch start i]) hrest]
    simp [labelsGen, List.append_assoc]

/-- Inversion: if the insert loop succeeded, it created exactly the
`labelsGen` rows and appended them to the store. -/
theorem genLoop_some (env : GenEnv) (batch : Nat) (start : Int) :
    ∀ (n i : Nat) (store ls st : List Label),
      genLoop env batch start n i store = (some ls, st) →
      ls = labelsGen env batch start n i ∧ st = store ++ ls := by
  intro n
  induction n with
  | zero =>
    intro i store ls st h
    simp only [genLoop, Prod.mk.injEq, Option.some.injEq] at h
    simp [labelsGen, ← h.1, ← h.2]
  | succ n ih =>
    intro i store ls st h
    by_cases hf : env.failAt i = true
    · simp [genLoop, hf] at h
    · simp only [genLoop, hf, Bool.false_eq_true, if_false] at h
      rcases hrec : genLoop env batch start n (i + 1)
          (store ++ [mkLabel env batch start i]) with ⟨o, st2⟩
      rw [hrec] at h
      cases o with
      | none => simp at h
      | some rest =>
        simp only [Prod.mk.injEq, Option.some.injEq] at h
        obtain ⟨hr1, hr2⟩ := ih (i + 1) _ rest st2 hrec
        constructor
        · rw [← h.1, hr1]; simp [labelsGen]
        · rw [← h.2, hr2, ← h.1, hr1]
          simp [labelsGen, List.append_assoc]

/-- A run whose first failing insert is at loop offset `k` leaves exactly the
first `k` rows in the store and reports the failure. -/
theorem genLoop_failFirst (env : GenEnv) (batch : Nat) (start : Int) :
    ∀ (n k i : Nat) (store : List Label), k < n →
      (∀ j, j < k → env.failAt (i + j) = false) →
      env.failAt (i + k) = true →
      genLoop env batch start n i store =
        (none, store ++ labelsGen env batch start k i) := by
  intro n
  induction n with
  | zero => intro k i store hk; omega
  | succ n ih =>
    intro k i store hk hpre hfk
    cases k with
    | zero =>
      have hf : env.failAt i = true := by simpa using hfk
      simp [genLoop, hf, labelsGen]
    | succ k =>
      have hf : env.failAt i = false := by simpa using hpre 0 (by omega)
      have hpre2 : ∀ j, j < k → env.failAt (i + 1 + j) = false := by
        intro j hj
        have := hpre (j + 1) (by omega)
        simpa [Nat.add_assoc, Nat.add_comm 1 j] using this
      have hfk2 : env.failAt (i + 1 + k) = true := by
        have hidx : i + 1 + k = i + (k + 1) := by omega
        rw [hidx]; exact hfk
      simp only [genLoop, hf, Bool.false_eq_true, if_false]
      rw [ih k (i + 1) (store ++ [mkLabel env batch start i]) (by omega) hpre2 hfk2]
      simp [labelsGen, List.append_assoc]

/-- Folding `max` of the numbers over a nonempty `labelsGen` block starting at
value `A` yields `max A` of the block's last (largest) number. -/
theorem labelsGen_foldMax (env : GenEnv) (batch : Nat) (start : Int) :
    ∀ (n i : Nat) (A : Int),
      (labelsGen env batch start (n + 1) i).foldl (fun a x => max a x.number) A
        = max A (start + ((i + n : Nat) : Int)) := by
  intro n
  induction n with
  | zero => intro i A; simp [labelsGen, mkLabel]
  | succ n ih =>
    intro i A
    have hstep : labelsGen env batch start (n + 1 + 1) i
        = mkLabel env batch start i :: labelsGen env batch start (n + 1) (i + 1) := rfl
    have hnum : (mkLabel env batch start i).number = start + ((i : Nat) : Int) := rfl
    rw [hstep, List.foldl_cons, ih (i + 1), hnum]
    have hle : start + ((i : Nat) : Int) ≤ start + ((i + 1 + n : Nat) : Int) := by
      push_cast; omega
    rw [max_assoc, max_eq_right hle]
    congr 1
    push_cast
    ring

/-- Appending a nonempty block of rows numbered `max+1, ...` raises the stored
maximum by exactly the block length. -/
theorem maxNumber_append_gen (env : GenEnv) (batch : Nat) :
    ∀ (store : List Label) (k : Nat),
      maxNumber (store ++ labelsGen env batch (maxNumber store + 1) (k + 1) 0)
        = maxNumber store + (k + 1 : Nat) := by
  intro store k
  cases store with
  | nil =>
    cases k with
    | zero => simp [labelsGen, maxNumber, mkLabel]
    | succ k =>
      have h1 : maxNumber (([] : List Label)
            ++ labelsGen env batch (maxNumber ([] : List Label) + 1) (k + 1 + 1) 0)
          = (labelsGen env batch ((0 : Int) + 1) (k + 1) 1).foldl
              (fun a l => max a l.number)
              (mkLabel env batch ((0 : Int) + 1) 0).number := rfl
      rw [h1, labelsGen_foldMax]
      have hnum : (mkLabel env batch ((0 : Int) + 1) 0).number
          = (0 : Int) + 1 + ((0 : Nat) : Int) := rfl
      rw [hnum]
      have hle : (0 : Int) + 1 + ((0 : Nat) : Int)
          ≤ 0 + 1 + ((1 + k : Nat) : Int) := by push_cast; omega
      rw [max_eq_right hle]
      show (0 : Int) + 1 + ((1 + k : Nat) : Int) = maxNumber [] + ((k + 1 + 1 : Nat) : Int)
      have hmz : maxNumber ([] : List Label) = 0 := rfl
      rw [hmz]
      push_cast
      ring
  | cons x xs =>
    have hsplit : maxNumber ((x :: xs)
          ++ labelsGen env batch (maxNumber (x :: xs) + 1) (k + 1) 0)
        = (labelsGen env batch (maxNumber (x :: xs) + 1) (k + 1) 0).foldl
            (fun a l => max a l.number) (maxNumber (x :: xs)) := by
      show (xs ++ labelsGen env batch (maxNumber (x :: xs) + 1) (k + 1) 0).foldl
          (fun a l => max a l.number) x.number = _
      rw [List.foldl_append]
      rfl
    rw [hsplit, labelsGen_foldMax]
    have hle : maxNumber (x :: xs)
        ≤ maxNumber (x :: xs) + 1 + ((0 + k : Nat) : Int) := by push_cast; omega
    rw [max_eq_right hle]
    push_cast
    ring

/-! ## Claim theorems: the Label Allocator -/

/-- C1: for `1 <= count <= 1000` and the supported template, a failure-free
`generate_labels` call returns exactly `count` labels whose numbers are the
contiguous ascending range `M+1 .. M+count` above the pre-call stored maximum
`M` (0 when the store is empty), all sharing the one batch id drawn at the
start of the call. -/
theorem generate_labels_contiguous_range (env : GenEnv) (store : List Label)
    (count : Int) (template : Option (List Char))
    (h1 : 1 ≤ count) (h2 : count ≤ 1000)
    (ht : template.getD averyTemplateName = averyTemplateName)
    (hf : ∀ j, j < count.toNat → env.failAt j = false) :
    ∃ res : GenerateLabelsResponse,
      generate_labels env store count template = (.ok res, store ++ res.labels) ∧
      res.batch_id = env.ids 0 ∧
      res.labels.length = count.toNat ∧
      (∀ j, j < count.toNat →
        ∃ l, res.labels[j]? = some l ∧ l.number = maxNumber store + 1 + (j : Int)) ∧
      (∀ l ∈ res.labels, l.batch_id = some (env.ids 0)) := by
  have hc : ¬ (count ≤ 0 ∨ 1000 < count) := by omega
  have ht2 : ¬ (template.getD averyTemplateName ≠ averyTemplateName) := by
    simp [ht]
  have hloop := genLoop_noFail env (env.ids 0) (maxNumber store + 1)
      count.toNat 0 store (by intro j hj; simpa using hf j hj)
  refine ⟨⟨env.ids 0, labelsGen env (env.ids 0) (maxNumber store + 1) count.toNat 0,
      count⟩, ?_, rfl, labelsGen_length env _ _ _ _, ?_, ?_⟩
  · simp only [generate_labels, if_neg hc, if_neg ht2, hloop]
  · intro j hj
    refine ⟨_, labelsGen_getElem env _ _ count.toNat 0 j hj, ?_⟩
    simp [mkLabel]
  · intro l hl
    obtain ⟨j, hj, rfl⟩ := labelsGen_mem env _ _ count.toNat 0 l hl
    rfl

/-- Witness for C1: three labels on an empty store get numbers 1, 2, 3 and the
batch id drawn from the supply. -/
theorem generate_labels_contiguous_range_witness :
    (1 : Int) ≤ 3 ∧ (3 : Int) ≤ 1000 ∧
    ((none : Option (List Char)).getD averyTemplateName = averyTemplateName) ∧
    (∀ j, j < (3 : Int).toNat → envNoFail.failAt j = false) ∧
    (∃ res : GenerateLabelsResponse,
      generate_labels envNoFail [] 3 none = (.ok res, [] ++ res.labels) ∧
      res.batch_id = envNoFail.ids 0 ∧
      res.labels.length = (3 : Int).toNat ∧
      (∀ j, j < (3 : Int).toNat →
        ∃ l, res.labels[j]? = some l ∧ l.number = maxNumber [] + 1 + (j : Int)) ∧
      (∀ l ∈ res.labels, l.batch_id = some (envNoFail.ids 0))) :=
  ⟨by norm_num, by norm_num, rfl, fun _ _ => rfl,
   generate_labels_contiguous_range envNoFail [] 3 none (by norm_num) (by norm_num)
     rfl (fun _ _ => rfl)⟩

/-- C5 (theorem): every label returned by a successful `generate_labels` call
carries as payload the configured base URL with all trailing slashes removed,
then `"/l/"`, then the label's own id. -/
theorem generate_labels_payload_url (env : GenEnv) (store : List Label)
    (count : Int) (template : Option (List Char))
    (res : GenerateLabelsResponse) (store2 : List Label)
    (hok : generate_labels env store count template = (.ok res, store2)) :
    ∀ l ∈ res.labels,
      l.qr_data = trimEndMatches '/' env.base_url ++ slashL
        ++ (Nat.repr l.id).toList := by
  by_cases hc : count ≤ 0 ∨ 1000 < count
  · simp [generate_labels, hc] at hok
  by_cases ht : template.getD averyTemplateName ≠ averyTemplateName
  · simp [generate_labels, hc, ht] at hok
  rcases hrec : genLoop env (env.ids 0) (maxNumber store + 1) count.toNat 0 store
    with ⟨o, st⟩
  cases o with
  | none =>
    simp only [generate_labels, if_neg hc, if_neg ht, hrec] at hok
    exact absurd hok (by simp)
  | some ls =>
    simp only [generate_labels, if_neg hc, if_neg ht, hrec, Prod.mk.injEq,
      Except.ok.injEq] at hok
    obtain ⟨hres, -⟩ := hok
    intro l hl
    rw [← hres] at hl
    simp only at hl
    obtain ⟨hls, -⟩ := genLoop_some env (env.ids 0) (maxNumber store + 1)
      count.toNat 0 store ls st hrec
    rw [hls] at hl
    obtain ⟨j, hj, rfl⟩ := labelsGen_mem env _ _ count.toNat 0 l hl
    rfl

/-- Witness for C5: a concrete call whose two labels' payloads have the
required shape (the configured base URL ends in a slash, which is stripped). -/
theorem generate_labels_payload_url_witness :
    generate_labels envNoFail [] 2 none =
      (.ok ((generate_labels envNoFail [] 2 none).1.toOption.getD ⟨0, [], 0⟩),
       (generate_labels envNoFail [] 2 none).2) ∧
    (∀ l ∈ ((generate_labels envNoFail [] 2 none).1.toOption.getD ⟨0, [], 0⟩).labels,
      l.qr_data = trimEndMatches '/' envNoFail.base_url ++ slashL
        ++ (Nat.repr l.id).toList) :=
  ⟨rfl, generate_labels_payload_url envNoFail [] 2 none _ _ rfl⟩

/-- C4 (counterexample): the handler runs each `INSERT` in its own statement
with no transaction, so a failure partway does leave a partial effect that a
later `generate_labels` call observes. Concretely: on an empty store, a
2-label request whose second insert fails leaves one row behind (error 500,
store length 1), and a later 1-label call then returns number 2 — whereas the
same later call on the untouched empty store returns number 1. -/
theorem generate_labels_midway_failure_observable_cex :
    (generate_labels envFailSecond [] 2 none).1 = .error 500 ∧
    ((generate_labels envFailSecond [] 2 none).2).length = 1 ∧
    ((generate_labels envNoFail ((generate_labels envFailSecond [] 2 none).2)
        1 none).1.toOption.map (fun r => r.labels.map (fun l => l.number)))
      = some [(2 : Int)] ∧
    ((generate_labels envNoFail [] 1 none).1.toOption.map
        (fun r => r.labels.map (fun l => l.number)))
      = some [(1 : Int)] :=
  ⟨rfl, rfl, rfl, rfl⟩

/-- C4 (amended): when an insert fails at loop offset `k`, the rows already
committed stay in the store — but they are exactly the contiguous,
duplicate-free prefix `M+1 .. M+k`, and the stored maximum becomes `M+k`, so a
subsequent allocation continues at `M+k+1` with no gap and no duplicate
sequence number. -/
theorem generate_labels_midway_failure_contiguous (env : GenEnv)
    (store : List Label) (count : Int) (template : Option (List Char)) (k : Nat)
    (h1 : 1 ≤ count) (h2 : count ≤ 1000)
    (ht : template.getD averyTemplateName = averyTemplateName)
    (hk : k < count.toNat)
    (hpre : ∀ j, j < k → env.failAt j = false)
    (hfk : env.failAt k = true) :
    ∃ created : List Label,
      generate_labels env store count template = (.error 500, store ++ created) ∧
      created.length = k ∧
      (∀ j, j < k →
        ∃ l, created[j]? = some l ∧ l.number = maxNumber store + 1 + (j : Int)) ∧
      maxNumber (store ++ created) = maxNumber store + (k : Int) := by
  have hc : ¬ (count ≤ 0 ∨ 1000 < count) := by omega
  have ht2 : ¬ (template.getD averyTemplateName ≠ averyTemplateName) := by
    simp [ht]
  have hloop := genLoop_failFirst env (env.ids 0) (maxNumber store + 1)
      count.toNat k 0 store hk (by intro j hj; simpa using hpre j hj)
      (by simpa using hfk)
  refine ⟨labelsGen env (env.ids 0) (maxNumber store + 1) k 0, ?_,
      labelsGen_length env _ _ _ _, ?_, ?_⟩
  · simp only [generate_labels, if_neg hc, if_neg ht2, hloop]
  · intro j hj
    refine ⟨_, labelsGen_getElem env _ _ k 0 j hj, ?_⟩
    simp [mkLabel]
  · cases k with
    | zero => simp [labelsGen]
    | succ k =>
      rw [maxNumber_append_gen env (env.ids 0) store k]

/-! ## Sheet chunking lemmas -/

/-- Length of `chunksAux` under sufficient fuel: one chunk per started block
of 30 labels, i.e. the ceiling of `length / 30`. -/
theorem chunksAux_length :
    ∀ (fuel : Nat) (xs : List α), xs.length ≤ fuel →
      (chunksAux fuel xs).length
        = (xs.length + (Avery18660.LABELS_PER_SHEET - 1))
            / Avery18660.LABELS_PER_SHEET := by
  intro fuel
  induction fuel with
  | zero =>
    intro xs h
    have hx : xs = [] := List.length_eq_zero.mp (by omega)
    subst hx
    simp [chunksAux, Avery18660.LABELS_PER_SHEET]
  | succ fuel ih =>
    intro xs h
    cases xs with
    | nil => simp [chunksAux, Avery18660.LABELS_PER_SHEET]
    | cons x rest =>
      have hx := ih ((x :: rest).drop Avery18660.LABELS_PER_SHEET)
        (by simp only [List.length_drop, List.length_cons]
            simp only [Avery18660.LABELS_PER_SHEET]
            simp only [List.length_cons] at h
            omega)
      rw [chunksAux]
      simp only [List.length_cons, hx, List.length_drop]
      simp only [Avery18660.LABELS_PER_SHEET, List.length_cons]
      omega

/-- `chunksPerSheet` produces one chunk (sheet) per started block of 30. -/
theorem chunksPerSheet_length (xs : List α) :
    (chunksPerSheet xs).length
      = (xs.length + (Avery18660.LABELS_PER_SHEET - 1))
          / Avery18660.LABELS_PER_SHEET :=
  chunksAux_length xs.length xs (Nat.le_refl _)

/-- Indexing of `chunksAux` under sufficient fuel: the `k`-th label overall
sits in chunk `k / 30` at in-chunk offset `k % 30`. -/
theorem chunksAux_getElem :
    ∀ (fuel : Nat) (xs : List α) (k : Nat), xs.length ≤ fuel → k < xs.length →
      ∃ ck : List α, (chunksAux fuel xs)[k / Avery18660.LABELS_PER_SHEET]? = some ck ∧
        ck[k % Avery18660.LABELS_PER_SHEET]? = xs[k]? := by
  intro fuel
  induction fuel with
  | zero => intro xs k h hk; omega
  | succ fuel ih =>
    intro xs k h hk
    cases xs with
    | nil => simp at hk
    | cons x rest =>
      rw [chunksAux]
      by_cases hk30 : k < Avery18660.LABELS_PER_SHEET
      · have hdiv : k / Avery18660.LABELS_PER_SHEET = 0 := by
          simp only [Avery18660.LABELS_PER_SHEET] at hk30 ⊢
          omega
        have hmod : k % Avery18660.LABELS_PER_SHEET = k := by
          simp only [Avery18660.LABELS_PER_SHEET] at hk30 ⊢
          omega
        refine ⟨(x :: rest).take Avery18660.LABELS_PER_SHEET, ?_, ?_⟩
        · rw [hdiv]
          simp
        · rw [hmod, List.getElem?_take_of_lt hk30]
      · have hk30b : Avery18660.LABELS_PER_SHEET ≤ k := by omega
        have hdiv : k / Avery18660.LABELS_PER_SHEET
            = (k - Avery18660.LABELS_PER_SHEET) / Avery18660.LABELS_PER_SHEET + 1 := by
          simp only [Avery18660.LABELS_PER_SHEET] at hk30b ⊢
          omega
        have hmod : k % Avery18660.LABELS_PER_SHEET
            = (k - Avery18660.LABELS_PER_SHEET) % Avery18660.LABELS_PER_SHEET := by
          simp only [Avery18660.LABELS_PER_SHEET] at hk30b ⊢
          omega
        obtain ⟨ck, hc1, hc2⟩ := ih ((x :: rest).drop Avery18660.LABELS_PER_SHEET)
          (k - Avery18660.LABELS_PER_SHEET)
          (by simp only [List.length_drop, List.length_cons]
              simp only [List.length_cons] at h
              simp only [Avery18660.LABELS_PER_SHEET] at hk30b ⊢
              omega)
          (by simp only [List.length_drop, List.length_cons]
              simp only [List.length_cons] at hk
              simp only [Avery18660.LABELS_PER_SHEET] at hk30b ⊢
              omega)
        refine ⟨ck, ?_, ?_⟩
        · rw [hdiv]
          simpa using hc1
        · rw [hmod, hc2, List.getElem?_drop]
          congr 1
          omega

/-- Indexing of `chunksPerSheet`: the `k`-th label overall sits in chunk
`k / 30` at in-chunk offset `k % 30`. -/
theorem chunksPerSheet_getElem (xs : List α) (k : Nat) (hk : k < xs.length) :
    ∃ ck : List α, (chunksPerSheet xs)[k / Avery18660.LABELS_PER_SHEET]? = some ck ∧
      ck[k % Avery18660.LABELS_PER_SHEET]? = xs[k]? :=
  chunksAux_getElem xs.length xs k (Nat.le_refl _) hk

/-! ## Render loop lemmas -/

/-- `generate_qr_code_image` only fails with its own two error sites. -/
theorem generate_qr_code_image_ne_emptyBatch (qrNew : List Char → Option QrMatrix)
    (renderPng : QrMatrix → Nat → Option (List Nat))
    (data : List Char) (size_pixels : Nat) :
    generate_qr_code_image qrNew renderPng data size_pixels
      ≠ .error QrPdfError.emptyBatch := by
  intro he
  unfold generate_qr_code_image at he
  split at he
  · simp at he
  · split at he
    · simp at he
    · simp at he

/-- Inversion of one successful `renderSlots` step. -/
theorem renderSlots_cons_ok (qrNew : List Char → Option QrMatrix)
    (renderPng : QrMatrix → Nat → Option (List Nat))
    (loadImg : List Nat → Option RgbImage)
    (i : Nat) (d : List Char) (n : Int) (rest : List (List Char × Int))
    (ps : List PlacedLabel)
    (h : renderSlots qrNew renderPng loadImg i ((d, n) :: rest) = .ok ps) :
    ∃ png img ps2,
      generate_qr_code_image qrNew renderPng d qrSizePixels = .ok png ∧
      loadImg png = some img ∧
      renderSlots qrNew renderPng loadImg (i + 1) rest = .ok ps2 ∧
      ps = placeSlot i n img :: ps2 := by
  rw [renderSlots] at h
  split at h
  · simp at h
  next png hq =>
    split at h
    · simp at h
    next img hl =>
      split at h
      · simp at h
      next ps2 hr =>
        simp only [Except.ok.injEq] at h
        exact ⟨png, img, ps2, hq, hl, hr, h.symm⟩

/-- The `j`-th placed item of a successful `renderSlots` run starting at
in-sheet index `i` is `placeSlot (i + j)` of the `j`-th (payload, number). -/
theorem renderSlots_getElem (qrNew : List Char → Option QrMatrix)
    (renderPng : QrMatrix → Nat → Option (List Nat))
    (loadImg : List Nat → Option RgbImage) :
    ∀ (chunk : List (List Char × Int)) (i : Nat) (ps : List PlacedLabel),
      renderSlots qrNew renderPng loadImg i chunk = .ok ps →
      ∀ (j : Nat) (pr : List Char × Int), chunk[j]? = some pr →
        ∃ img : RgbImage, ps[j]? = some (placeSlot (i + j) pr.2 img) := by
  intro chunk
  induction chunk with
  | nil => intro i ps h j pr hj; simp at hj
  | cons pr0 rest ih =>
    intro i ps h j pr hj
    rcases pr0 with ⟨d, n⟩
    obtain ⟨png, img, ps2, -, -, hr, rfl⟩ :=
      renderSlots_cons_ok qrNew renderPng loadImg i d n rest ps h
    cases j with
    | zero =>
      simp only [List.getElem?_cons_zero, Option.some.injEq] at hj
      subst hj
      exact ⟨img, by simp⟩
    | succ j =>
      simp only [List.getElem?_cons_succ] at hj
      obtain ⟨img2, hps2⟩ := ih (i + 1) ps2 hr j pr hj
      refine ⟨img2, ?_⟩
      rw [List.getElem?_cons_succ, hps2]
      congr 2
      omega

/-- `renderSlots` never reports the empty-batch error. -/
theorem renderSlots_ne_emptyBatch (qrNew : List Char → Option QrMatrix)
    (renderPng : QrMatrix → Nat → Option (List Nat))
    (loadImg : List Nat → Option RgbImage) :
    ∀ (chunk : List (List Char × Int)) (i : Nat),
      renderSlots qrNew renderPng loadImg i chunk
        ≠ .error QrPdfError.emptyBatch := by
  intro chunk
  induction chunk with
  | nil => intro i he; rw [renderSlots] at he; simp at he
  | cons pr0 rest ih =>
    intro i he
    rcases pr0 with ⟨d, n⟩
    rw [renderSlots] at he
    split at he
    next e hq =>
      have he2 : e = QrPdfError.emptyBatch := by simpa using he
      exact generate_qr_code_image_ne_emptyBatch qrNew renderPng d qrSizePixels
        (by rw [hq, he2])
    next png hq =>
      split at he
      · simp at he
      next img hl =>
        split at he
        next e hr => exact ih (i + 1) (hr.trans he)
        next ps2 hr => simp at he

/-- Inversion of one successful `renderPages` step. -/
theorem renderPages_cons_ok (qrNew : List Char → Option QrMatrix)
    (renderPng : QrMatrix → Nat → Option (List Nat))
    (loadImg : List Nat → Option RgbImage)
    (chunk : List (List Char × Int)) (cs : List (List (List Char × Int)))
    (ps : List (List PlacedLabel))
    (h : renderPages qrNew renderPng loadImg (chunk :: cs) = .ok ps) :
    ∃ pg ps2,
      renderSlots qrNew renderPng loadImg 0 chunk = .ok pg ∧
      renderPages qrNew renderPng loadImg cs = .ok ps2 ∧
      ps = pg :: ps2 := by
  rw [renderPages] at h
  split at h
  · simp at h
  next pg hs =>
    split at h
    · simp at h
    next ps2 hp =>
      simp only [Except.ok.injEq] at h
      exact ⟨pg, ps2, hs, hp, h.symm⟩

/-- A successful `renderPages` run produces one page per chunk. -/
theorem renderPages_length (qrNew : List Char → Option QrMatrix)
    (renderPng : QrMatrix → Nat → Option (List Nat))
    (loadImg : List Nat → Option RgbImage) :
    ∀ (cs : List (List (List Char × Int))) (ps : List (List PlacedLabel)),
      renderPages qrNew renderPng loadImg cs = .ok ps → ps.length = cs.length := by
  intro cs
  induction cs with
  | nil => intro ps h; rw [renderPages] at h; simp only [Except.ok.injEq] at h; simp [← h]
  | cons chunk cs ih =>
    intro ps h
    obtain ⟨pg, ps2, -, hp, rfl⟩ :=
      renderPages_cons_ok qrNew renderPng loadImg chunk cs ps h
    simp [ih ps2 hp]

/-- The `s`-th page of a successful `renderPages` run renders the `s`-th
chunk. -/
theorem renderPages_getElem (qrNew : List Char → Option QrMatrix)
    (renderPng : QrMatrix → Nat → Option (List Nat))
    (loadImg : List Nat → Option RgbImage) :
    ∀ (cs : List (List (List Char × Int))) (ps : List (List PlacedLabel)),
      renderPages qrNew renderPng loadImg cs = .ok ps →
      ∀ (s : Nat) (chunk : List (List Char × Int)), cs[s]? = some chunk →
        ∃ pg, ps[s]? = some pg ∧
          renderSlots qrNew renderPng loadImg 0 chunk = .ok pg := by
  intro cs
  induction cs with
  | nil => intro ps h s chunk hs; simp at hs
  | cons chunk0 cs ih =>
    intro ps h s chunk hs
    obtain ⟨pg, ps2, hpg, hp, rfl⟩ :=
      renderPages_cons_ok qrNew renderPng loadImg chunk0 cs ps h
    cases s with
    | zero =>
      simp only [List.getElem?_cons_zero, Option.some.injEq] at hs
      subst hs
      exact ⟨pg, by simp, hpg⟩
    | succ s =>
      simp only [List.getElem?_cons_succ] at hs ⊢
      exact ih ps2 hp s chunk hs

/-- `renderPages` never reports the empty-batch error. -/
theorem renderPages_ne_emptyBatch (qrNew : List Char → Option QrMatrix)
    (renderPng : QrMatrix → Nat → Option (List Nat))
    (loadImg : List Nat → Option RgbImage) :
    ∀ (cs : List (List (List Char × Int))),
      renderPages qrNew renderPng loadImg cs ≠ .error QrPdfError.emptyBatch := by
  intro cs
  induction cs with
  | nil => intro he; rw [renderPages] at he; simp at he
  | cons chunk cs ih =>
    intro he
    rw [renderPages] at he
    split at he
    next e hs =>
      have he2 : e = QrPdfError.emptyBatch := by simpa using he
      exact renderSlots_ne_emptyBatch qrNew renderPng loadImg chunk 0
        (by rw [hs, he2])
    next pg hs =>
      split at he
      next e hp => exact ih (hp.trans he)
      next ps2 hp => simp at he

/-- Witness for the amended C4: on an empty store, a 2-label request whose
second insert fails commits exactly the row numbered 1 and the stored maximum
becomes 1. -/
theorem generate_labels_midway_failure_contiguous_witness :
    (1 : Int) ≤ 2 ∧ (2 : Int) ≤ 1000 ∧
    ((none : Option (List Char)).getD averyTemplateName = averyTemplateName) ∧
    1 < (2 : Int).toNat ∧
    (∀ j, j < 1 → envFailSecond.failAt j = false) ∧
    envFailSecond.failAt 1 = true ∧
    (∃ created : List Label,
      generate_labels envFailSecond [] 2 none = (.error 500, [] ++ created) ∧
      created.length = 1 ∧
      (∀ j : Nat, j < 1 →
        ∃ l, created[j]? = some l ∧ l.number = maxNumber [] + 1 + (j : Int)) ∧
      maxNumber ([] ++ created) = maxNumber [] + ((1 : Nat) : Int)) :=
  ⟨by norm_num, by norm_num, rfl, by norm_num,
   (by intro j hj; interval_cases j; rfl), rfl,
   generate_labels_midway_failure_contiguous envFailSecond [] 2 none 1
     (by norm_num) (by norm_num) rfl (by norm_num)
     (by intro j hj; interval_cases j; rfl) rfl⟩

/-! ## Claim theorems: rendering -/

/-- C6: the barcode encoder is deterministic and side-effect free: its result
depends only on payload and target size (not on the ambient effect state
`w`), and it leaves that state untouched — so two invocations with identical
payload and target size produce bitwise-identical bytes. -/
theorem generate_qr_code_image_deterministic
    (qrNew : List Char → Option QrMatrix)
    (renderPng : QrMatrix → Nat → Option (List Nat))
    (w₁ w₂ : Nat) (data : List Char) (size_pixels : Nat) :
    (generate_qr_code_image_run qrNew renderPng w₁ data size_pixels).1
      = (generate_qr_code_image_run qrNew renderPng w₂ data size_pixels).1 ∧
    (generate_qr_code_image_run qrNew renderPng w₁ data size_pixels).2 = w₁ :=
  ⟨rfl, rfl⟩

/-- C7: rendering an empty label sequence fails with the empty-batch error
(and hence returns no pages); rendering a non-empty sequence never fails with
that error (any failure is an encoding, loading or font error). -/
theorem generate_label_pdf_empty_batch (qrNew : List Char → Option QrMatrix)
    (renderPng : QrMatrix → Nat → Option (List Nat))
    (loadImg : List Nat → Option RgbImage) (fontOk : Bool)
    (labels : List (List Char × Int)) :
    (labels = [] →
      generate_label_pdf qrNew renderPng loadImg fontOk labels
        = .error QrPdfError.emptyBatch) ∧
    (labels ≠ [] →
      generate_label_pdf qrNew renderPng loadImg fontOk labels
        ≠ .error QrPdfError.emptyBatch) := by
  constructor
  · intro h0
    subst h0
    simp [generate_label_pdf]
  · intro hne
    simp only [generate_label_pdf, if_neg hne]
    by_cases hfont : fontOk = false
    · simp [hfont]
    · simp only [if_neg hfont]
      exact renderPages_ne_emptyBatch qrNew renderPng loadImg (chunksPerSheet labels)

/-- Witness for C7: the empty batch is rejected with the empty-batch error,
and a concrete one-label batch is not. -/
theorem generate_label_pdf_empty_batch_witness :
    generate_label_pdf qrNewStub renderPngStub loadImgStub true []
        = .error QrPdfError.emptyBatch ∧
    generate_label_pdf qrNewStub renderPngStub loadImgStub true labelsData1
        ≠ .error QrPdfError.emptyBatch :=
  ⟨(generate_label_pdf_empty_batch qrNewStub renderPngStub loadImgStub true []).1
     rfl,
   (generate_label_pdf_empty_batch qrNewStub renderPngStub loadImgStub true
      labelsData1).2 (by simp [labelsData1])⟩

/-- C3: a successful render of a positive number of labels produces exactly
`ceil(label_count / slots_per_sheet)` pages, where the supported template's
`slots_per_sheet` is `columns * rows = 30`. -/
theorem generate_label_pdf_sheet_count (qrNew : List Char → Option QrMatrix)
    (renderPng : QrMatrix → Nat → Option (List Nat))
    (loadImg : List Nat → Option RgbImage) (fontOk : Bool)
    (labels : List (List Char × Int)) (pages : List (List PlacedLabel))
    (hpos : 0 < labels.length)
    (hok : generate_label_pdf qrNew renderPng loadImg fontOk labels = .ok pages) :
    Avery18660.LABELS_PER_SHEET
        = Avery18660.LABELS_PER_ROW * Avery18660.LABELS_PER_COLUMN ∧
    pages.length = (labels.length + (Avery18660.LABELS_PER_SHEET - 1))
        / Avery18660.LABELS_PER_SHEET := by
  refine ⟨rfl, ?_⟩
  have hne : ¬ labels = [] := by
    intro h0
    subst h0
    simp at hpos
  by_cases hfont : fontOk = false
  · simp [generate_label_pdf, hne, hfont] at hok
  · have hpdf : renderPages qrNew renderPng loadImg (chunksPerSheet labels)
        = .ok pages := by
      simpa [generate_label_pdf, hne, hfont] using hok
    rw [renderPages_length qrNew renderPng loadImg _ pages hpdf,
      chunksPerSheet_length]

/-- Witness for C3: 31 labels render to exactly 2 pages (and 30 slots per
sheet is 3 columns times 10 rows). -/
theorem generate_label_pdf_sheet_count_witness :
    0 < labelsData31.length ∧
    generate_label_pdf qrNewStub renderPngStub loadImgStub true labelsData31
      = .ok ((generate_label_pdf qrNewStub renderPngStub loadImgStub true
          labelsData31).toOption.getD []) ∧
    (Avery18660.LABELS_PER_SHEET
        = Avery18660.LABELS_PER_ROW * Avery18660.LABELS_PER_COLUMN ∧
      ((generate_label_pdf qrNewStub renderPngStub loadImgStub true
          labelsData31).toOption.getD []).length
        = (labelsData31.length + (Avery18660.LABELS_PER_SHEET - 1))
            / Avery18660.LABELS_PER_SHEET) ∧
    ((generate_label_pdf qrNewStub renderPngStub loadImgStub true
        labelsData31).toOption.getD []).length = 2 :=
  ⟨by decide, rfl,
   generate_label_pdf_sheet_count qrNewStub renderPngStub loadImgStub true
     labelsData31 _ (by decide) rfl,
   rfl⟩

/-- C2: in a successful render, the `k`-th label (0-based) lands on sheet
`k / 30`, and within it at row `(k mod 30) / 3`, column `(k mod 30) mod 3`,
with cell position `x = left_margin + column * (label_width + horizontal_gap)`
and `y = sheet_height - top_margin - (row + 1) * label_height`, each slot
position computed from its own integer row/column indices. -/
theorem generate_label_pdf_slot_position (qrNew : List Char → Option QrMatrix)
    (renderPng : QrMatrix → Nat → Option (List Nat))
    (loadImg : List Nat → Option RgbImage) (fontOk : Bool)
    (labels : List (List Char × Int)) (pages : List (List PlacedLabel)) (k : Nat)
    (hok : generate_label_pdf qrNew renderPng loadImg fontOk labels = .ok pages)
    (hk : k < labels.length) :
    ∃ (page : List PlacedLabel) (pl : PlacedLabel) (pr : List Char × Int),
      labels[k]? = some pr ∧
      pages[k / Avery18660.LABELS_PER_SHEET]? = some page ∧
      page[k % Avery18660.LABELS_PER_SHEET]? = some pl ∧
      pl.x = leftMarginPt
        + (((k % Avery18660.LABELS_PER_SHEET) % Avery18660.LABELS_PER_ROW : Nat) : ℚ)
          * (labelWidthPt + horizontalSpacingPt) ∧
      pl.y = sheetHeightPt - topMarginPt
        - ((((k % Avery18660.LABELS_PER_SHEET) / Avery18660.LABELS_PER_ROW : Nat) : ℚ)
            + 1) * labelHeightPt ∧
      pl.number = pr.2 := by
  have hne : ¬ labels = [] := by
    intro h0
    subst h0
    simp at hk
  by_cases hfont : fontOk = false
  · simp [generate_label_pdf, hne, hfont] at hok
  · have hpdf : renderPages qrNew renderPng loadImg (chunksPerSheet labels)
        = .ok pages := by
      simpa [generate_label_pdf, hne, hfont] using hok
    obtain ⟨ck, hck, hckk⟩ := chunksPerSheet_getElem labels k hk
    obtain ⟨pg, hpg, hslots⟩ := renderPages_getElem qrNew renderPng loadImg
      (chunksPerSheet labels) pages hpdf (k / Avery18660.LABELS_PER_SHEET) ck hck
    have hpr : labels[k]? = some labels[k] := List.getElem?_eq_getElem hk
    have hckpr : ck[k % Avery18660.LABELS_PER_SHEET]? = some labels[k] := by
      rw [hckk, hpr]
    obtain ⟨img, hpl⟩ := renderSlots_getElem qrNew renderPng loadImg ck 0 pg hslots
      (k % Avery18660.LABELS_PER_SHEET) labels[k] hckpr
    refine ⟨pg, placeSlot (0 + k % Avery18660.LABELS_PER_SHEET) (labels[k]).2 img,
      labels[k], hpr, hpg, hpl, ?_, ?_, ?_⟩
    · simp [placeSlot, Nat.zero_add]
    · simp [placeSlot, Nat.zero_add]
    · simp [placeSlot]

/-- Witness for C2: in a concrete successful render of 31 labels, label
index 4 sits on sheet 0, row 1, column 1, at the claimed coordinates. -/
theorem generate_label_pdf_slot_position_witness :
    generate_label_pdf qrNewStub renderPngStub loadImgStub true labelsData31
      = .ok ((generate_label_pdf qrNewStub renderPngStub loadImgStub true
          labelsData31).toOption.getD []) ∧
    4 < labelsData31.length ∧
    (∃ (page : List PlacedLabel) (pl : PlacedLabel) (pr : List Char × Int),
      labelsData31[4]? = some pr ∧
      ((generate_label_pdf qrNewStub renderPngStub loadImgStub true
          labelsData31).toOption.getD [])[4 / Avery18660.LABELS_PER_SHEET]?
        = some page ∧
      page[4 % Avery18660.LABELS_PER_SHEET]? = some pl ∧
      pl.x = leftMarginPt
        + (((4 % Avery18660.LABELS_PER_SHEET) % Avery18660.LABELS_PER_ROW : Nat) : ℚ)
          * (labelWidthPt + horizontalSpacingPt) ∧
      pl.y = sheetHeightPt - topMarginPt
        - ((((4 % Avery18660.LABELS_PER_SHEET) / Avery18660.LABELS_PER_ROW : Nat) : ℚ)
            + 1) * labelHeightPt ∧
      pl.number = pr.2) :=
  ⟨rfl, by decide,
   generate_label_pdf_slot_position qrNewStub renderPngStub loadImgStub true
     labelsData31 _ 4 rfl (by decide)⟩

/-! ## Assignment lemmas and claim theorems -/

/-- `find?` commutes with a map that preserves the predicate. -/
theorem find_map_pred_invariant (f : Label → Label) (p : Label → Bool)
    (hf : ∀ l, p (f l) = p l) :
    ∀ ls : List Label, (ls.map f).find? p = (ls.find? p).map f := by
  intro ls
  induction ls with
  | nil => simp
  | cons x xs ih =>
    cases hp : p x with
    | true =>
      have h1 : (f x :: xs.map f).find? p = some (f x) :=
        List.find?_cons_of_pos _ (by rw [hf x]; exact hp)
      have h2 : (x :: xs).find? p = some x := List.find?_cons_of_pos _ hp
      rw [List.map_cons, h1, h2]
      rfl
    | false =>
      have h1 : (f x :: xs.map f).find? p = (xs.map f).find? p :=
        List.find?_cons_of_neg _ (by rw [hf x]; simp [hp])
      have h2 : (x :: xs).find? p = xs.find? p :=
        List.find?_cons_of_neg _ (by simp [hp])
      rw [List.map_cons, h1, h2, ih]

/-- The row updater of `assign_label` touches only the assignment columns, so
it preserves the lookup predicate. -/
theorem assign_updater_pred (now : Int) (t : List Char) (eid : Nat) (id : Nat) :
    ∀ l : Label,
      ((if l.id == id then updateAssign now t eid l else l).id == id)
        = (l.id == id) := by
  intro l
  by_cases h : l.id == id
  · simp [h, updateAssign]
  · simp [h]

/-- Full outcome of `assign_label` when the entity type is valid and the
label is found: the found row gets its assignment columns overwritten, the
rest of the store is mapped through the identity, and both store operations
run. -/
theorem assign_label_found (store : List Label) (now : Int) (id : Nat)
    (t : List Char) (eid : Nat) (l0 : Label)
    (htv : validEntityTypes.contains t = true)
    (hfind : store.find? (fun l => l.id == id) = some l0) :
    assign_label store now id t eid
      = ⟨.ok (updateAssign now t eid l0),
         store.map (fun l => if l.id == id then updateAssign now t eid l else l),
         [DbOp.selectLabel id, DbOp.updateLabel id]⟩ := by
  have hl0pre := List.find?_some hfind
  have hl0 : (l0.id == id) = true := by simpa using hl0pre
  unfold assign_label
  rw [htv]
  simp only [Bool.true_eq_false, if_false]
  rw [hfind]
  simp only
  rw [find_map_pred_invariant _ _ (assign_updater_pred now t eid id) store, hfind]
  have hl0eq : l0.id = id := by simpa using hl0
  simp [hl0eq]

/-- C8: assigning an existing label with a valid entity type succeeds,
replaces any previous assignment, sets the assignment timestamp, leaves the
label's other fields (id, number, payload, batch, creation time) unchanged,
leaves every other row in the store, and a second assignment (e.g. item X
then item Y) overwrites the first, leaving the second pair as the final
assignment. -/
theorem assign_label_overwrites_assignment (store : List Label) (now : Int)
    (id : Nat) (t : List Char) (eid : Nat) (l0 : Label)
    (htv : validEntityTypes.contains t = true)
    (hfind : store.find? (fun l => l.id == id) = some l0) :
    (∃ lr : Label,
      (assign_label store now id t eid).result = .ok lr ∧
      lr.id = l0.id ∧ lr.number = l0.number ∧ lr.qr_data = l0.qr_data ∧
      lr.batch_id = l0.batch_id ∧ lr.created_at = l0.created_at ∧
      lr.assigned_to_type = some t ∧ lr.assigned_to_id = some eid ∧
      lr.assigned_at = some now) ∧
    (∀ l ∈ store, (l.id == id) = false →
      l ∈ (assign_label store now id t eid).store) ∧
    (∀ (t2 : List Char) (eid2 : Nat) (now2 : Int),
      validEntityTypes.contains t2 = true →
      ∃ lr2 : Label,
        (assign_label (assign_label store now id t eid).store
            now2 id t2 eid2).result = .ok lr2 ∧
        lr2.id = l0.id ∧ lr2.number = l0.number ∧ lr2.qr_data = l0.qr_data ∧
        lr2.batch_id = l0.batch_id ∧ lr2.created_at = l0.created_at ∧
        lr2.assigned_to_type = some t2 ∧ lr2.assigned_to_id = some eid2 ∧
        lr2.assigned_at = some now2) := by
  have h1 := assign_label_found store now id t eid l0 htv hfind
  refine ⟨⟨updateAssign now t eid l0, by rw [h1], rfl, rfl, rfl, rfl, rfl,
      rfl, rfl, rfl⟩, ?_, ?_⟩
  · intro l hl hne
    rw [h1]
    simp only
    have hid : (if l.id == id then updateAssign now t eid l else l) = l := by
      simp [hne]
    exact hid ▸ List.mem_map_of_mem _ hl
  · intro t2 eid2 now2 htv2
    have hl0pre := List.find?_some hfind
    have hl0 : (l0.id == id) = true := by simpa using hl0pre
    have hfind2 : ((assign_label store now id t eid).store).find?
        (fun l => l.id == id) = some (updateAssign now t eid l0) := by
      rw [h1]
      simp only
      rw [find_map_pred_invariant _ _ (assign_updater_pred now t eid id) store,
        hfind]
      have hl0eq : l0.id = id := by simpa using hl0
      simp [hl0eq]
    have h2 := assign_label_found (assign_label store now id t eid).store
      now2 id t2 eid2 (updateAssign now t eid l0) htv2 hfind2
    exact ⟨updateAssign now2 t2 eid2 (updateAssign now t eid l0),
      by rw [h2], rfl, rfl, rfl, rfl, rfl, rfl, rfl, rfl⟩

/-- Witness for C8: assigning the stored label 7 to (item, 42) and then to
(item, 43) ends with (item, 43), all other fields intact. -/
theorem assign_label_overwrites_assignment_witness :
    validEntityTypes.contains (("item").toList) = true ∧
    [labelA].find? (fun l => l.id == 7) = some labelA ∧
    ((∃ lr : Label,
      (assign_label [labelA] 5 7 (("item").toList) 42).result = .ok lr ∧
      lr.id = labelA.id ∧ lr.number = labelA.number ∧
      lr.qr_data = labelA.qr_data ∧ lr.batch_id = labelA.batch_id ∧
      lr.created_at = labelA.created_at ∧
      lr.assigned_to_type = some (("item").toList) ∧
      lr.assigned_to_id = some 42 ∧ lr.assigned_at = some 5) ∧
    (∀ l ∈ [labelA], (l.id == 7) = false →
      l ∈ (assign_label [labelA] 5 7 (("item").toList) 42).store) ∧
    (∀ (t2 : List Char) (eid2 : Nat) (now2 : Int),
      validEntityTypes.contains t2 = true →
      ∃ lr2 : Label,
        (assign_label (assign_label [labelA] 5 7 (("item").toList) 42).store
            now2 7 t2 eid2).result = .ok lr2 ∧
        lr2.id = labelA.id ∧ lr2.number = labelA.number ∧
        lr2.qr_data = labelA.qr_data ∧ lr2.batch_id = labelA.batch_id ∧
        lr2.created_at = labelA.created_at ∧
        lr2.assigned_to_type = some t2 ∧ lr2.assigned_to_id = some eid2 ∧
        lr2.assigned_at = some now2)) :=
  ⟨rfl, rfl,
   assign_label_overwrites_assignment [labelA] 5 7 (("item").toList) 42 labelA
     rfl rfl⟩

/-- C9: an entity type outside the five recognized values is rejected with
the validation error before anything happens: no store operation runs and the
store (hence the targeted label) is unchanged. -/
theorem assign_label_invalid_entity_type (store : List Label) (now : Int)
    (id : Nat) (t : List Char) (eid : Nat)
    (htv : validEntityTypes.contains t = false) :
    assign_label store now id t eid = ⟨.error 400, store, []⟩ := by
  unfold assign_label
  rw [htv]
  simp

/-- Witness for C9: `"vehicle"` is rejected with status 400 and the store is
untouched. -/
theorem assign_label_invalid_entity_type_witness :
    validEntityTypes.contains (("vehicle").toList) = false ∧
    assign_label [labelA] 5 7 (("vehicle").toList) 42
      = ⟨.error 400, [labelA], []⟩ :=
  ⟨rfl,
   assign_label_invalid_entity_type [labelA] 5 7 (("vehicle").toList) 42 rfl⟩

/-- C10: entity-type validation runs before the label lookup: for an id that
is not in the store, an invalid entity type yields the validation error
(400), not the not-found error (404), and no store operation is performed,
leaving the store unchanged. -/
theorem assign_label_validates_before_lookup (store : List Label) (now : Int)
    (id : Nat) (t : List Char) (eid : Nat)
    (hmiss : store.find? (fun l => l.id == id) = none)
    (htv : validEntityTypes.contains t = false) :
    (assign_label store now id t eid).result = .error 400 ∧
    (assign_label store now id t eid).result ≠ .error 404 ∧
    (assign_label store now id t eid).ops = [] ∧
    (assign_label store now id t eid).store = store := by
  unfold assign_label
  rw [htv]
  refine ⟨by simp, by simp, by simp, by simp⟩

/-- Witness for C10: the unknown id 9 with the invalid type `"truck"` fails
with 400 (not 404) and performs no store operation. -/
theorem assign_label_validates_before_lookup_witness :
    ([labelA].find? (fun l => l.id == 9) = none) ∧
    validEntityTypes.contains (("truck").toList) = false ∧
    ((assign_label [labelA] 5 9 (("truck").toList) 42).result = .error 400 ∧
     (assign_label [labelA] 5 9 (("truck").toList) 42).result ≠ .error 404 ∧
     (assign_label [labelA] 5 9 (("truck").toList) 42).ops = [] ∧
     (assign_label [labelA] 5 9 (("truck").toList) 42).store = [labelA]) :=
  ⟨rfl, rfl,
   assign_label_validates_before_lookup [labelA] 5 9 (("truck").toList) 42
     rfl rfl⟩
